import Mathlib

/-!
# Detetive Quest: the room tree and its explorer

A shallow embedding of `src/detetivequest.c`.

* `Sala` is the value a `struct Sala *` points to: `Sala.NULL` for the null
  pointer, `Sala.sala nome esquerda direita` for an allocated room.
* `criarSala` is the constructor of lines 32-56, `montarMapa` the wiring of
  the mansion in `main` (lines 158-181).
* `passo` is one iteration of the `while` loop of `explorarSalas`
  (lines 88-136) and `explorarSalas` its iteration.

Standard input is a list of characters: the characters that the successive
calls `scanf(" %c", &escolha)` store in `escolha` (the leading blank of the
format makes `scanf` skip white space, so these are the non-blank characters
typed, in order).  The list is the input typed so far; when it is exhausted at
a room that still has a path the process is blocked in `scanf`, which is the
state `Estado.aguardando`.  Standard output is the list of the strings written
by the successive `printf` calls.

A second reading of the same loop, `passoFim`, takes the list as the whole of
standard input, followed by end of file: there `scanf` fails, stores nothing,
and line 115 goes on with the value `escolha` already had.
-/

namespace DetetiveQuest

/-! ## Data model -/

/-- What a `struct Sala *` denotes: the null pointer or a room with its name
and its two child pointers (lines 15-19). -/
inductive Sala where
  | NULL : Sala
  | sala (nome : String) (esquerda direita : Sala) : Sala
deriving DecidableEq, Repr

/-- Lines 32-56.  `malloc` and `strdup` tell whether the two allocations return
a non-null pointer; `none` is the path `perror(...); exit(EXIT_FAILURE)`. -/
def criarSala (malloc strdup : Bool) (nome : String) : Option Sala :=
  if malloc = false then none
  else if strdup = false then none
  else some (Sala.sala nome Sala.NULL Sala.NULL)

/-- The assignment `p->esquerda = q`; `none` when `p` is the null pointer. -/
def atribuirEsquerda (q : Sala) : Sala → Option Sala
  | Sala.NULL => none
  | Sala.sala nome _ direita => some (Sala.sala nome q direita)

/-- The assignment `p->direita = q`; `none` when `p` is the null pointer. -/
def atribuirDireita (q : Sala) : Sala → Option Sala
  | Sala.NULL => none
  | Sala.sala nome esquerda _ => some (Sala.sala nome esquerda q)

/-- An assignment carried out behind `p->esquerda`. -/
def naEsquerda (f : Sala → Option Sala) : Sala → Option Sala
  | Sala.NULL => none
  | Sala.sala nome esquerda direita =>
    (f esquerda).map (fun e => Sala.sala nome e direita)

/-- An assignment carried out behind `p->direita`. -/
def naDireita (f : Sala → Option Sala) : Sala → Option Sala
  | Sala.NULL => none
  | Sala.sala nome esquerda direita =>
    (f direita).map (fun d => Sala.sala nome esquerda d)

/-- Lines 158-181 of `main`, every allocation succeeding: the eleven rooms are
created and linked in the order of the source. -/
def montarMapa : Option Sala := do
  -- Nível 0
  let hall ← criarSala true true "Hall de Entrada"
  -- Nível 1
  let hall ← (criarSala true true "Sala de Estar").bind
    (fun s => atribuirEsquerda s hall)
  let hall ← (criarSala true true "Cozinha").bind
    (fun s => atribuirDireita s hall)
  -- Nível 2, esquerda
  let hall ← (criarSala true true "Escritorio").bind
    (fun s => naEsquerda (atribuirEsquerda s) hall)
  let hall ← (criarSala true true "Sala de Jantar").bind
    (fun s => naEsquerda (atribuirDireita s) hall)
  -- Nível 2, direita
  let hall ← (criarSala true true "Despensa").bind
    (fun s => naDireita (atribuirEsquerda s) hall)
  let hall ← (criarSala true true "Jardim").bind
    (fun s => naDireita (atribuirDireita s) hall)
  -- Nível 3, a partir do Escritorio
  let hall ← (criarSala true true "Biblioteca").bind
    (fun s => naEsquerda (naEsquerda (atribuirEsquerda s)) hall)
  let hall ← (criarSala true true "Quarto Principal").bind
    (fun s => naEsquerda (naEsquerda (atribuirDireita s)) hall)
  -- Nível 3, a partir do Jardim
  let hall ← (criarSala true true "Piscina").bind
    (fun s => naDireita (naDireita (atribuirEsquerda s)) hall)
  -- Nível 4, a partir do Quarto Principal
  let hall ← (criarSala true true "Banheiro Privativo").bind
    (fun s => naEsquerda (naEsquerda (naDireita (atribuirDireita s))) hall)
  pure hall

/-! ## The explorer -/

/-- The function `tolower` of `<ctype.h>` in the "C" locale (the program never
calls `setlocale`): the letters `A`..`Z` (65..90) move up by 32, every other
character is returned as it is. -/
def tolower (c : Char) : Char :=
  if 65 ≤ c.toNat ∧ c.toNat ≤ 90 then Char.ofNat (c.toNat + 32) else c

/-- Where the loop of `explorarSalas` stands: at the head of an iteration,
blocked in `scanf` with no input left, or left for good. -/
inductive Estado where
  | ativo
  | aguardando
  | terminado
deriving DecidableEq, Repr

/-- The state of a run: the loop status, `salaAtual`, the input not yet read
and the output written so far. -/
structure Config where
  estado : Estado
  salaAtual : Sala
  entrada : List Char
  saida : List String
deriving DecidableEq, Repr

/-- Lines 91 and 93. -/
def linha : String := "----------------------------------------\n"

/-- Line 92. -/
def msgSala (nome : String) : String := "VOCÊ ESTÁ EM: " ++ nome ++ "\n"

/-- Line 97. -/
def msgFim : String := "\n-- FIM DA EXPLORAÇÃO --\n"

/-- Line 98. -/
def msgSemCaminhos : String :=
  "Você encontrou um cômodo sem mais caminhos. A exploração termina aqui.\n"

/-- Line 103. -/
def msgCaminhos : String := "Caminhos disponiveis:\n"

/-- Lines 104-106: the left option, printed when the left child exists. -/
def opcaoEsquerda : Sala → List String
  | Sala.NULL => []
  | Sala.sala nome _ _ => ["  [e] Esquerda -> " ++ nome ++ "\n"]

/-- Lines 107-109: the right option, printed when the right child exists. -/
def opcaoDireita : Sala → List String
  | Sala.NULL => []
  | Sala.sala nome _ _ => ["  [d] Direita -> " ++ nome ++ "\n"]

/-- Line 110. -/
def msgOpcaoSair : String := "  [s] Sair do jogo\n"

/-- Line 111. -/
def msgPrompt : String := "Sua escolha (e/d/s): "

/-- Line 119. -/
def msgSaindo : String := "\nSaindo do Detective Quest. Volte sempre!\n"

/-- Line 125. -/
def msgErroEsquerda : String :=
  "\n--- ERRO: Não há caminho à esquerda neste cômodo! ---\n\n"

/-- Line 131. -/
def msgErroDireita : String :=
  "\n--- ERRO: Não há caminho à direita neste cômodo! ---\n\n"

/-- Line 134. -/
def msgInvalida : String :=
  "\n--- ESCOLHA INVÁLIDA: Por favor, digite \x27e\x27, \x27d\x27 ou \x27s\x27. ---\n\n"

/-- Lines 91-93: what every iteration prints first. -/
def cabecalho (nome : String) : List String := [linha, msgSala nome, linha]

/-- Lines 103-111: the menu printed at a room that has a path. -/
def menu (esquerda direita : Sala) : List String :=
  [msgCaminhos] ++ opcaoEsquerda esquerda ++ opcaoDireita direita
    ++ [msgOpcaoSair, msgPrompt]

/-- One iteration of the loop of lines 88-136.  A configuration that is not
`ativo` is left as it is. -/
def passo (c : Config) : Config :=
  match c.estado with
  | Estado.terminado => c
  | Estado.aguardando => c
  | Estado.ativo =>
    match c.salaAtual with
    | Sala.NULL => ⟨Estado.terminado, c.salaAtual, c.entrada, c.saida⟩
    | Sala.sala nome esquerda direita =>
      let saida1 := c.saida ++ cabecalho nome
      if esquerda = Sala.NULL ∧ direita = Sala.NULL then
        ⟨Estado.terminado, c.salaAtual, c.entrada,
          saida1 ++ [msgFim, msgSemCaminhos]⟩
      else
        let saida2 := saida1 ++ menu esquerda direita
        match c.entrada with
        | [] => ⟨Estado.aguardando, c.salaAtual, [], saida2⟩
        | lido :: resto =>
          let escolha := tolower lido
          if escolha = 's' then
            ⟨Estado.terminado, c.salaAtual, resto, saida2 ++ [msgSaindo]⟩
          else if escolha = 'e' then
            if esquerda ≠ Sala.NULL then
              ⟨Estado.ativo, esquerda, resto, saida2⟩
            else
              ⟨Estado.ativo, c.salaAtual, resto, saida2 ++ [msgErroEsquerda]⟩
          else if escolha = 'd' then
            if direita ≠ Sala.NULL then
              ⟨Estado.ativo, direita, resto, saida2⟩
            else
              ⟨Estado.ativo, c.salaAtual, resto, saida2 ++ [msgErroDireita]⟩
          else
            ⟨Estado.ativo, c.salaAtual, resto, saida2 ++ [msgInvalida]⟩

/-- The loop run for at most `n` iterations. -/
def executar : Nat → Config → Config
  | 0, c => c
  | n + 1, c => executar n (passo c)

/-- Lines 84-85: the configuration in which the loop is entered. -/
def inicial (raiz : Sala) (entrada : List Char) : Config :=
  ⟨Estado.ativo, raiz, entrada, []⟩

/-- The function of lines 83-137 on the input `entrada`.  Every iteration that
does not stop reads one character, so `entrada.length + 1` iterations always
reach a configuration that is not `ativo` (`executar_parado`). -/
def explorarSalas (raiz : Sala) (entrada : List Char) : Config :=
  executar (entrada.length + 1) (inicial raiz entrada)

/-! ## Inputs that differ only in letter case -/

/-- Two characters that differ at most in letter case: they are equal, or one
is a capital letter `A`..`Z` and the other is the small letter 32 places
above it. -/
def mesmaLetra (a b : Char) : Prop :=
  a = b ∨ (65 ≤ a.toNat ∧ a.toNat ≤ 90 ∧ b.toNat = a.toNat + 32)
    ∨ (65 ≤ b.toNat ∧ b.toNat ≤ 90 ∧ a.toNat = b.toNat + 32)

/-- Two configurations that agree on everything but the letter case of the
input still to be read. -/
def mesmaConfig (a b : Config) : Prop :=
  a.estado = b.estado ∧ a.salaAtual = b.salaAtual ∧ a.saida = b.saida
    ∧ List.Forall₂ mesmaLetra a.entrada b.entrada

/-! ## The rooms of a map -/

/-- The rooms of the tree behind a pointer, each before the rooms below it,
the left side before the right side. -/
def todasSalas : Sala → List Sala
  | Sala.NULL => []
  | Sala.sala nome esquerda direita =>
    Sala.sala nome esquerda direita :: (todasSalas esquerda ++ todasSalas direita)

/-- The field `nome` of the room behind a pointer (the empty string for the
null pointer, which has none). -/
def nomeDe : Sala → String
  | Sala.NULL => ""
  | Sala.sala nome _ _ => nome

/-- The test of line 96 on the room behind a pointer:
`esquerda == NULL && direita == NULL`. -/
def semFilhos : Sala → Bool
  | Sala.sala _ Sala.NULL Sala.NULL => true
  | _ => false

/-! ## Why a run has stopped -/

/-- What holds of a configuration `c` of a run on the input `entrada0`: the
current room is not the null pointer, the input of `c` is what is left of
`entrada0`, and if the loop has been left then the current room has no
children or the last character read was `s` or `S`. -/
def paradaJustificada (entrada0 : List Char) (c : Config) : Prop :=
  c.salaAtual ≠ Sala.NULL ∧
  ∃ lidos, entrada0 = lidos ++ c.entrada ∧
    (c.estado = Estado.terminado →
      (∃ nome, c.salaAtual = Sala.sala nome Sala.NULL Sala.NULL) ∨
      (∃ antes lido, lidos = antes ++ [lido] ∧ (lido = 's' ∨ lido = 'S')))

/-! ## The path walked from the starting room -/

/-- The two child pointers of a room. -/
inductive Direcao where
  | esquerda
  | direita
deriving DecidableEq, Repr

/-- The pointer `p->esquerda` or `p->direita`; the null pointer has no
children. -/
def filho : Direcao → Sala → Sala
  | _, Sala.NULL => Sala.NULL
  | Direcao.esquerda, Sala.sala _ esquerda _ => esquerda
  | Direcao.direita, Sala.sala _ _ direita => direita

/-- The pointer reached from `raiz` by following the child pointers of a
path; a room at the end of a path of length `k` lies at depth `k`. -/
def subarvore : Sala → List Direcao → Sala
  | raiz, [] => raiz
  | raiz, x :: resto => subarvore (filho x raiz) resto

/-- The number of levels of the tree behind a pointer: none for the null
pointer, one more than the taller child for a room.  The height of a tree of
rooms, counted in moves from the root to the deepest room, is `altura - 1`. -/
def altura : Sala → Nat
  | Sala.NULL => 0
  | Sala.sala _ esquerda direita => 1 + max (altura esquerda) (altura direita)

/-- The move made by the iteration that starts in `c`, if it makes one: the
assignments of lines 123 and 129 are reached when the explorer is active at a
room that has a path, the character read is `e` (or `d`) after `tolower`, and
the child on that side exists. -/
def movimento (c : Config) : Option Direcao :=
  match c.estado, c.salaAtual, c.entrada with
  | Estado.ativo, Sala.sala _ esquerda direita, lido :: _ =>
    if esquerda = Sala.NULL ∧ direita = Sala.NULL then none
    else if tolower lido = 's' then none
    else if tolower lido = 'e' then
      if esquerda ≠ Sala.NULL then some Direcao.esquerda else none
    else if tolower lido = 'd' then
      if direita ≠ Sala.NULL then some Direcao.direita else none
    else none
  | _, _, _ => none

/-- The moves made in the first `n` iterations from `c`, in order. -/
def caminho : Nat → Config → List Direcao
  | 0, _ => []
  | n + 1, c => (movimento c).toList ++ caminho n (passo c)

/-! ## More input behind the input of a run -/

/-- The configuration `c` with the characters `ys` put behind its input. -/
def estender (ys : List Char) (c : Config) : Config :=
  ⟨c.estado, c.salaAtual, c.entrada ++ ys, c.saida⟩

/-! ## The loop on an input that ends -/

/-- The state of a run on an input followed by end of file: as `Config`, with
the value of the variable `escolha` of line 84, which outlives an iteration. -/
structure ConfigFim where
  estado : Estado
  salaAtual : Sala
  escolha : Char
  entrada : List Char
  saida : List String
deriving DecidableEq, Repr

/-- One iteration of the loop of lines 88-136 when the list is the whole of
standard input.  Line 114 does not look at the result of `scanf`: with a
character left it is stored in `escolha`, at end of file nothing is stored and
`escolha` keeps its value; line 115 then applies `tolower` to `escolha` in
both cases.  This step never waits. -/
def passoFim (c : ConfigFim) : ConfigFim :=
  match c.estado with
  | Estado.terminado => c
  | Estado.aguardando => c
  | Estado.ativo =>
    match c.salaAtual with
    | Sala.NULL => ⟨Estado.terminado, c.salaAtual, c.escolha, c.entrada, c.saida⟩
    | Sala.sala nome esquerda direita =>
      let saida1 := c.saida ++ cabecalho nome
      if esquerda = Sala.NULL ∧ direita = Sala.NULL then
        ⟨Estado.terminado, c.salaAtual, c.escolha, c.entrada,
          saida1 ++ [msgFim, msgSemCaminhos]⟩
      else
        let saida2 := saida1 ++ menu esquerda direita
        let lido := c.entrada.headD c.escolha
        let resto := c.entrada.tail
        let escolha := tolower lido
        if escolha = 's' then
          ⟨Estado.terminado, c.salaAtual, escolha, resto, saida2 ++ [msgSaindo]⟩
        else if escolha = 'e' then
          if esquerda ≠ Sala.NULL then
            ⟨Estado.ativo, esquerda, escolha, resto, saida2⟩
          else
            ⟨Estado.ativo, c.salaAtual, escolha, resto, saida2 ++ [msgErroEsquerda]⟩
        else if escolha = 'd' then
          if direita ≠ Sala.NULL then
            ⟨Estado.ativo, direita, escolha, resto, saida2⟩
          else
            ⟨Estado.ativo, c.salaAtual, escolha, resto, saida2 ++ [msgErroDireita]⟩
        else
          ⟨Estado.ativo, c.salaAtual, escolha, resto, saida2 ++ [msgInvalida]⟩

/-- The loop on an input that ends, run for at most `n` iterations. -/
def executarFim : Nat → ConfigFim → ConfigFim
  | 0, c => c
  | n + 1, c => executarFim n (passoFim c)

/-- Lines 84-85 for a run on an input that ends; `escolha0` is the value the
uninitialised variable `escolha` happens to hold. -/
def inicialFim (escolha0 : Char) (raiz : Sala) (entrada : List Char) : ConfigFim :=
  ⟨Estado.ativo, raiz, escolha0, entrada, []⟩

/-- The function of lines 83-137 on the whole input `entrada` followed by end
of file, after at most `n` iterations.  Such a run need not leave the loop:
past the end of the input the same choice is taken again and again. -/
def explorarSalasFim (n : Nat) (escolha0 : Char) (raiz : Sala) (entrada : List Char) :
    ConfigFim :=
  executarFim n (inicialFim escolha0 raiz entrada)

/-- The configuration of a run on an input that ends, without the variable
`escolha`. -/
def semEscolha (c : ConfigFim) : Config :=
  ⟨c.estado, c.salaAtual, c.entrada, c.saida⟩

/-! ## Shared lemmas -/

theorem toNat_ofNat_pequeno (m : Nat) (h : m < 55296) : (Char.ofNat m).toNat = m := by
  have hv : m.isValidChar := Or.inl h
  simp only [Char.ofNat, dif_pos hv, Char.ofNatAux, Char.toNat]
  simp [UInt32.toNat]

theorem tolower_eq_minuscula (c l : Char) (hl : 97 ≤ l.toNat ∧ l.toNat ≤ 122) :
    tolower c = l ↔ c = l ∨ c = Char.ofNat (l.toNat - 32) := by
  unfold tolower
  constructor
  · intro h
    split at h
    · right
      have hn := congrArg Char.toNat h
      rw [toNat_ofNat_pequeno _ (by omega)] at hn
      have h2 : l.toNat - 32 = c.toNat := by omega
      rw [h2, Char.ofNat_toNat]
    · exact Or.inl h
  · rintro (h | h)
    · subst h
      rw [if_neg (by omega)]
    · have hc : c.toNat = l.toNat - 32 := by
        rw [h, toNat_ofNat_pequeno _ (by omega)]
      rw [if_pos (by omega), hc]
      have h2 : l.toNat - 32 + 32 = l.toNat := by omega
      rw [h2, Char.ofNat_toNat]

theorem tolower_eq_s (c : Char) : tolower c = 's' ↔ c = 's' ∨ c = 'S' :=
  tolower_eq_minuscula c 's' (by decide)

theorem tolower_eq_e (c : Char) : tolower c = 'e' ↔ c = 'e' ∨ c = 'E' :=
  tolower_eq_minuscula c 'e' (by decide)

theorem tolower_eq_d (c : Char) : tolower c = 'd' ↔ c = 'd' ∨ c = 'D' :=
  tolower_eq_minuscula c 'd' (by decide)

theorem passo_parado (c : Config) (h : c.estado ≠ Estado.ativo) : passo c = c := by
  unfold passo
  cases hc : c.estado with
  | ativo => exact absurd hc h
  | aguardando => rfl
  | terminado => rfl

theorem executar_de_parado (n : Nat) (c : Config) (h : c.estado ≠ Estado.ativo) :
    executar n c = c := by
  induction n with
  | zero => rfl
  | succ k ih => rw [executar, passo_parado c h, ih]

theorem passo_progresso (c : Config) (h : c.estado = Estado.ativo) :
    (passo c).estado ≠ Estado.ativo ∨ (passo c).entrada.length < c.entrada.length := by
  obtain ⟨est, sala, entrada, saida⟩ := c
  simp only at h
  subst h
  cases sala with
  | NULL => left; simp [passo]
  | sala nome esquerda direita =>
    by_cases hf : esquerda = Sala.NULL ∧ direita = Sala.NULL
    · left; simp [passo, hf]
    · cases entrada with
      | nil => left; simp [passo, hf]
      | cons lido resto =>
        simp only [passo, if_neg hf]
        split_ifs <;> simp

theorem executar_parado (n : Nat) (c : Config) (h : c.entrada.length < n) :
    (executar n c).estado ≠ Estado.ativo := by
  induction n generalizing c with
  | zero => omega
  | succ k ih =>
    rw [executar]
    by_cases hc : c.estado = Estado.ativo
    · rcases passo_progresso c hc with hp | hp
      · rw [executar_de_parado k _ hp]; exact hp
      · exact ih _ (by omega)
    · rw [passo_parado c hc, executar_de_parado k c hc]; exact hc

theorem explorarSalas_parado (raiz : Sala) (entrada : List Char) :
    (explorarSalas raiz entrada).estado ≠ Estado.ativo :=
  executar_parado _ _ (by simp [inicial])

theorem executar_soma (m n : Nat) (c : Config) :
    executar (m + n) c = executar n (executar m c) := by
  induction m generalizing c with
  | zero => simp [executar]
  | succ k ih => rw [Nat.succ_add, executar, executar, ih]

theorem executar_estavel (n : Nat) (c : Config) (h : c.entrada.length < n) (m : Nat) (hm : n ≤ m) :
    executar m c = executar n c := by
  obtain ⟨k, rfl⟩ := Nat.exists_eq_add_of_le hm
  rw [executar_soma, executar_de_parado k _ (executar_parado n c h)]

theorem montarMapa_eq : montarMapa = some
    (Sala.sala "Hall de Entrada"
      (Sala.sala "Sala de Estar"
        (Sala.sala "Escritorio"
          (Sala.sala "Biblioteca" Sala.NULL Sala.NULL)
          (Sala.sala "Quarto Principal" Sala.NULL
            (Sala.sala "Banheiro Privativo" Sala.NULL Sala.NULL)))
        (Sala.sala "Sala de Jantar" Sala.NULL Sala.NULL))
      (Sala.sala "Cozinha"
        (Sala.sala "Despensa" Sala.NULL Sala.NULL)
        (Sala.sala "Jardim"
          (Sala.sala "Piscina" Sala.NULL Sala.NULL)
          Sala.NULL))) := by
  decide

theorem passo_folha (nome : String) (entrada : List Char) (saida : List String) :
    passo ⟨Estado.ativo, Sala.sala nome Sala.NULL Sala.NULL, entrada, saida⟩
      = ⟨Estado.terminado, Sala.sala nome Sala.NULL Sala.NULL, entrada,
          saida ++ cabecalho nome ++ [msgFim, msgSemCaminhos]⟩ := by
  simp [passo]

theorem passo_escolha (nome : String) (esquerda direita : Sala) (lido : Char)
    (resto : List Char) (saida : List String)
    (hf : ¬(esquerda = Sala.NULL ∧ direita = Sala.NULL)) :
    passo ⟨Estado.ativo, Sala.sala nome esquerda direita, lido :: resto, saida⟩
      = if tolower lido = 's' then
          ⟨Estado.terminado, Sala.sala nome esquerda direita, resto,
            saida ++ cabecalho nome ++ menu esquerda direita ++ [msgSaindo]⟩
        else if tolower lido = 'e' then
          if esquerda ≠ Sala.NULL then
            ⟨Estado.ativo, esquerda, resto, saida ++ cabecalho nome ++ menu esquerda direita⟩
          else
            ⟨Estado.ativo, Sala.sala nome esquerda direita, resto,
              saida ++ cabecalho nome ++ menu esquerda direita ++ [msgErroEsquerda]⟩
        else if tolower lido = 'd' then
          if direita ≠ Sala.NULL then
            ⟨Estado.ativo, direita, resto, saida ++ cabecalho nome ++ menu esquerda direita⟩
          else
            ⟨Estado.ativo, Sala.sala nome esquerda direita, resto,
              saida ++ cabecalho nome ++ menu esquerda direita ++ [msgErroDireita]⟩
        else
          ⟨Estado.ativo, Sala.sala nome esquerda direita, resto,
            saida ++ cabecalho nome ++ menu esquerda direita ++ [msgInvalida]⟩ := by
  simp only [passo, if_neg hf]

theorem tolower_e : tolower 'e' = 'e' := by decide

theorem tolower_d : tolower 'd' = 'd' := by decide

theorem tolower_s : tolower 's' = 's' := by decide

theorem passo_aguarda (nome : String) (esquerda direita : Sala) (saida : List String)
    (hf : ¬(esquerda = Sala.NULL ∧ direita = Sala.NULL)) :
    passo ⟨Estado.ativo, Sala.sala nome esquerda direita, [], saida⟩
      = ⟨Estado.aguardando, Sala.sala nome esquerda direita, [],
          saida ++ cabecalho nome ++ menu esquerda direita⟩ := by
  simp only [passo, if_neg hf]

theorem explorarSalas_folha (nome : String) (entrada : List Char) :
    explorarSalas (Sala.sala nome Sala.NULL Sala.NULL) entrada
      = ⟨Estado.terminado, Sala.sala nome Sala.NULL Sala.NULL, entrada,
          cabecalho nome ++ [msgFim, msgSemCaminhos]⟩ := by
  rw [explorarSalas, executar, inicial, passo_folha, executar_de_parado _ _ (by simp)]
  simp

theorem tolower_maiuscula (a b : Char) (h1 : 65 ≤ a.toNat) (h2 : a.toNat ≤ 90)
    (h3 : b.toNat = a.toNat + 32) : tolower a = tolower b := by
  unfold tolower
  rw [if_pos ⟨h1, h2⟩, if_neg (by omega), ← h3, Char.ofNat_toNat]

theorem tolower_mesmaLetra (a b : Char) (h : mesmaLetra a b) : tolower a = tolower b := by
  rcases h with h | ⟨h1, h2, h3⟩ | ⟨h1, h2, h3⟩
  · rw [h]
  · exact tolower_maiuscula a b h1 h2 h3
  · exact (tolower_maiuscula b a h1 h2 h3).symm

theorem passo_mesmaConfig (a b : Config) (h : mesmaConfig a b) :
    mesmaConfig (passo a) (passo b) := by
  obtain ⟨ea, sa, xa, oa⟩ := a
  obtain ⟨eb, sb, xb, ob⟩ := b
  obtain ⟨h1, h2, h3, h4⟩ := h
  simp only at h1 h2 h3 h4
  subst h1 h2 h3
  cases ea with
  | aguardando => exact ⟨rfl, rfl, rfl, h4⟩
  | terminado => exact ⟨rfl, rfl, rfl, h4⟩
  | ativo =>
    cases sa with
    | NULL => exact ⟨rfl, rfl, rfl, h4⟩
    | sala nome esquerda direita =>
      by_cases hf : esquerda = Sala.NULL ∧ direita = Sala.NULL
      · obtain ⟨rfl, rfl⟩ := hf
        rw [passo_folha, passo_folha]
        exact ⟨rfl, rfl, rfl, h4⟩
      · cases h4 with
        | nil =>
          rw [passo_aguarda _ _ _ _ hf]
          exact ⟨rfl, rfl, rfl, List.Forall₂.nil⟩
        | cons hab hresto =>
          rw [passo_escolha _ _ _ _ _ _ hf, passo_escolha _ _ _ _ _ _ hf,
            tolower_mesmaLetra _ _ hab]
          split_ifs <;> exact ⟨rfl, rfl, rfl, hresto⟩

theorem executar_mesmaConfig (n : Nat) (a b : Config) (h : mesmaConfig a b) :
    mesmaConfig (executar n a) (executar n b) := by
  induction n generalizing a b with
  | zero => exact h
  | succ k ih => exact ih _ _ (passo_mesmaConfig a b h)

theorem passo_paradaJustificada (entrada0 : List Char) (c : Config)
    (h : paradaJustificada entrada0 c) : paradaJustificada entrada0 (passo c) := by
  obtain ⟨est, sala, x, o⟩ := c
  obtain ⟨hs, lidos, hx, ht⟩ := h
  simp only at hs hx ht
  cases est with
  | aguardando => exact ⟨hs, lidos, hx, ht⟩
  | terminado => exact ⟨hs, lidos, hx, ht⟩
  | ativo =>
    cases sala with
    | NULL => exact absurd rfl hs
    | sala nome esquerda direita =>
      by_cases hf : esquerda = Sala.NULL ∧ direita = Sala.NULL
      · obtain ⟨rfl, rfl⟩ := hf
        rw [passo_folha]
        exact ⟨hs, lidos, hx, fun _ => Or.inl ⟨nome, rfl⟩⟩
      · cases x with
        | nil =>
          rw [passo_aguarda _ _ _ _ hf]
          exact ⟨hs, lidos, hx, fun h => by simp at h⟩
        | cons lido resto =>
          have hx2 : entrada0 = (lidos ++ [lido]) ++ resto := by simp [hx]
          rw [passo_escolha _ _ _ _ _ _ hf]
          split_ifs with h1 h2 h3 h4 h5
          · exact ⟨hs, lidos ++ [lido], hx2,
              fun _ => Or.inr ⟨lidos, lido, rfl, (tolower_eq_s lido).1 h1⟩⟩
          · exact ⟨h3, lidos ++ [lido], hx2, fun h => by simp at h⟩
          · exact ⟨hs, lidos ++ [lido], hx2, fun h => by simp at h⟩
          · exact ⟨h5, lidos ++ [lido], hx2, fun h => by simp at h⟩
          · exact ⟨hs, lidos ++ [lido], hx2, fun h => by simp at h⟩
          · exact ⟨hs, lidos ++ [lido], hx2, fun h => by simp at h⟩

theorem executar_paradaJustificada (entrada0 : List Char) (n : Nat) (c : Config)
    (h : paradaJustificada entrada0 c) : paradaJustificada entrada0 (executar n c) := by
  induction n generalizing c with
  | zero => exact h
  | succ k ih => exact ih _ (passo_paradaJustificada entrada0 c h)

theorem inicial_paradaJustificada (nome : String) (esquerda direita : Sala)
    (entrada : List Char) :
    paradaJustificada entrada (inicial (Sala.sala nome esquerda direita) entrada) :=
  ⟨by simp [inicial], [], rfl, fun h => by simp [inicial] at h⟩

theorem passo_movimento (c : Config) :
    (movimento c = none ∧ (passo c).salaAtual = c.salaAtual) ∨
    (∃ x, movimento c = some x ∧ (passo c).salaAtual = filho x c.salaAtual
      ∧ filho x c.salaAtual ≠ Sala.NULL) := by
  obtain ⟨est, sala, x, o⟩ := c
  cases est with
  | aguardando => exact Or.inl ⟨rfl, rfl⟩
  | terminado => exact Or.inl ⟨rfl, rfl⟩
  | ativo =>
    cases sala with
    | NULL => exact Or.inl ⟨rfl, rfl⟩
    | sala nome esquerda direita =>
      cases x with
      | nil =>
        refine Or.inl ⟨rfl, ?_⟩
        by_cases hf : esquerda = Sala.NULL ∧ direita = Sala.NULL
        · obtain ⟨rfl, rfl⟩ := hf
          rw [passo_folha]
        · rw [passo_aguarda _ _ _ _ hf]
      | cons lido resto =>
        by_cases hf : esquerda = Sala.NULL ∧ direita = Sala.NULL
        · refine Or.inl ⟨by simp [movimento, hf], ?_⟩
          obtain ⟨rfl, rfl⟩ := hf
          rw [passo_folha]
        · rw [passo_escolha _ _ _ _ _ _ hf]
          simp only [movimento, if_neg hf]
          split_ifs with h1 h2 h3 h4 h5
          · exact Or.inl ⟨rfl, rfl⟩
          · exact Or.inr ⟨Direcao.esquerda, rfl, rfl, h3⟩
          · exact Or.inl ⟨rfl, rfl⟩
          · exact Or.inr ⟨Direcao.direita, rfl, rfl, h5⟩
          · exact Or.inl ⟨rfl, rfl⟩
          · exact Or.inl ⟨rfl, rfl⟩

theorem subarvore_append (raiz : Sala) (p q : List Direcao) :
    subarvore raiz (p ++ q) = subarvore (subarvore raiz p) q := by
  induction p generalizing raiz with
  | nil => rfl
  | cons x resto ih => exact ih (filho x raiz)

theorem subarvore_NULL (p : List Direcao) : subarvore Sala.NULL p = Sala.NULL := by
  induction p with
  | nil => rfl
  | cons x resto ih => cases x <;> exact ih

theorem altura_filho (x : Direcao) (nome : String) (esquerda direita : Sala) :
    altura (filho x (Sala.sala nome esquerda direita)) + 1
      ≤ altura (Sala.sala nome esquerda direita) := by
  cases x <;> simp only [filho, altura] <;> omega

theorem subarvore_altura (raiz : Sala) (p : List Direcao)
    (h : subarvore raiz p ≠ Sala.NULL) : p.length + 1 ≤ altura raiz := by
  induction p generalizing raiz with
  | nil =>
    cases raiz with
    | NULL => exact absurd rfl h
    | sala nome esquerda direita => simp only [altura, List.length_nil]; omega
  | cons x resto ih =>
    cases raiz with
    | NULL => exact absurd (subarvore_NULL (x :: resto)) h
    | sala nome esquerda direita =>
      have h1 := ih (filho x (Sala.sala nome esquerda direita)) h
      have h2 := altura_filho x nome esquerda direita
      simp only [List.length_cons]
      omega

theorem caminho_soma (m n : Nat) (c : Config) :
    caminho (m + n) c = caminho m c ++ caminho n (executar m c) := by
  induction m generalizing c with
  | zero => simp [caminho, executar]
  | succ k ih => rw [Nat.succ_add, caminho, caminho, executar, ih, List.append_assoc]

theorem caminho_um (c : Config) : caminho 1 c = (movimento c).toList := by
  simp [caminho]

theorem executar_succ (n : Nat) (c : Config) :
    executar (n + 1) c = passo (executar n c) := by
  rw [executar_soma n 1 c]
  rfl

theorem executar_subarvore (n : Nat) (c : Config) :
    (executar n c).salaAtual = subarvore c.salaAtual (caminho n c) := by
  induction n generalizing c with
  | zero => rfl
  | succ k ih =>
    rw [executar, caminho, ih (passo c)]
    rcases passo_movimento c with ⟨h1, h2⟩ | ⟨x, h1, h2, _⟩
    · rw [h1, h2]; rfl
    · rw [h1, h2]; rfl

theorem caminho_prefixo (i j : Nat) (c : Config) (h : i ≤ j) :
    ∃ q, caminho j c = caminho i c ++ q := by
  obtain ⟨k, rfl⟩ := Nat.exists_eq_add_of_le h
  exact ⟨_, caminho_soma i k c⟩

theorem passo_estender (ys : List Char) (c : Config)
    (h : (passo c).estado ≠ Estado.aguardando) :
    passo (estender ys c) = estender ys (passo c) := by
  obtain ⟨est, sala, x, o⟩ := c
  cases est with
  | aguardando => rfl
  | terminado => rfl
  | ativo =>
    cases sala with
    | NULL => rfl
    | sala nome esquerda direita =>
      by_cases hf : esquerda = Sala.NULL ∧ direita = Sala.NULL
      · obtain ⟨rfl, rfl⟩ := hf
        simp only [estender]
        rw [passo_folha, passo_folha]
      · cases x with
        | nil =>
          rw [passo_aguarda _ _ _ _ hf] at h
          exact absurd rfl h
        | cons lido resto =>
          simp only [estender, List.cons_append]
          rw [passo_escolha _ _ _ _ _ _ hf, passo_escolha _ _ _ _ _ _ hf]
          split_ifs <;> rfl

theorem executar_estender (ys : List Char) (n : Nat) (c : Config)
    (h : (executar n c).estado = Estado.terminado) :
    executar n (estender ys c) = estender ys (executar n c) := by
  induction n generalizing c with
  | zero => rfl
  | succ k ih =>
    rw [executar] at h
    by_cases ha : (passo c).estado = Estado.aguardando
    · rw [executar_de_parado k _ (by rw [ha]; decide), ha] at h
      exact absurd h (by decide)
    · rw [executar, executar, passo_estender ys c ha]
      exact ih (passo c) h

/-- When the run on the input typed so far `xs` has left the loop, the run on
`xs` followed by any further input `ys` leaves it too, in the same room and
with the same output, and `ys` is left unread behind whatever `xs` left
unread. -/
theorem terminado_absorvente (raiz : Sala) (xs ys : List Char)
    (h : (explorarSalas raiz xs).estado = Estado.terminado) :
    (explorarSalas raiz (xs ++ ys)).estado = Estado.terminado ∧
    (explorarSalas raiz (xs ++ ys)).salaAtual = (explorarSalas raiz xs).salaAtual ∧
    (explorarSalas raiz (xs ++ ys)).saida = (explorarSalas raiz xs).saida ∧
    (explorarSalas raiz (xs ++ ys)).entrada = (explorarSalas raiz xs).entrada ++ ys := by
  have hfim : explorarSalas raiz (xs ++ ys) = estender ys (explorarSalas raiz xs) := by
    have hlen : (xs ++ ys).length + 1 = (xs.length + 1) + ys.length := by
      simp only [List.length_append]; omega
    have hini : inicial raiz (xs ++ ys) = estender ys (inicial raiz xs) := rfl
    unfold explorarSalas at h ⊢
    rw [hlen, executar_soma, hini, executar_estender ys _ _ h]
    exact executar_de_parado _ _ (by simp only [estender]; rw [h]; decide)
  rw [hfim]
  exact ⟨h, rfl, rfl, rfl⟩

theorem passoFim_semEscolha (c : ConfigFim)
    (h : (passo (semEscolha c)).estado ≠ Estado.aguardando) :
    semEscolha (passoFim c) = passo (semEscolha c) := by
  obtain ⟨est, sala, esc, x, o⟩ := c
  cases est with
  | aguardando => rfl
  | terminado => rfl
  | ativo =>
    cases sala with
    | NULL => rfl
    | sala nome esquerda direita =>
      by_cases hf : esquerda = Sala.NULL ∧ direita = Sala.NULL
      · obtain ⟨rfl, rfl⟩ := hf
        simp only [semEscolha]
        rw [passo_folha]
        simp [passoFim]
      · cases x with
        | nil =>
          simp only [semEscolha] at h
          rw [passo_aguarda _ _ _ _ hf] at h
          exact absurd rfl h
        | cons lido resto =>
          simp only [semEscolha]
          rw [passo_escolha _ _ _ _ _ _ hf]
          simp only [passoFim, if_neg hf, List.headD_cons, List.tail_cons]
          split_ifs <;> rfl

theorem passoFim_parado (c : ConfigFim) (h : c.estado ≠ Estado.ativo) : passoFim c = c := by
  unfold passoFim
  cases hc : c.estado with
  | ativo => exact absurd hc h
  | aguardando => rfl
  | terminado => rfl

theorem executarFim_de_parado (n : Nat) (c : ConfigFim) (h : c.estado ≠ Estado.ativo) :
    executarFim n c = c := by
  induction n with
  | zero => rfl
  | succ k ih => rw [executarFim, passoFim_parado c h, ih]

theorem executarFim_soma (m n : Nat) (c : ConfigFim) :
    executarFim (m + n) c = executarFim n (executarFim m c) := by
  induction m generalizing c with
  | zero => simp [executarFim]
  | succ k ih => rw [Nat.succ_add, executarFim, executarFim, ih]

theorem executarFim_semEscolha (n : Nat) (c : ConfigFim)
    (h : (executar n (semEscolha c)).estado = Estado.terminado) :
    semEscolha (executarFim n c) = executar n (semEscolha c) := by
  induction n generalizing c with
  | zero => rfl
  | succ k ih =>
    rw [executar] at h
    by_cases ha : (passo (semEscolha c)).estado = Estado.aguardando
    · rw [executar_de_parado k _ (by rw [ha]; decide), ha] at h
      exact absurd h (by decide)
    · rw [executarFim, executar, ← passoFim_semEscolha c ha]
      apply ih
      rw [passoFim_semEscolha c ha]
      exact h

theorem executarFim_terminado (m n : Nat) (c : ConfigFim)
    (h : (executar m (semEscolha c)).estado = Estado.terminado) (hn : m ≤ n) :
    semEscolha (executarFim n c) = executar m (semEscolha c) := by
  obtain ⟨k, rfl⟩ := Nat.exists_eq_add_of_le hn
  have h1 := executarFim_semEscolha m c h
  have h2 : (executarFim m c).estado = Estado.terminado := by
    have := congrArg Config.estado h1
    rw [h] at this
    exact this
  rw [executarFim_soma, executarFim_de_parado k _ (by rw [h2]; decide)]
  exact h1

/-! ## The claims -/

/-- C1: at a room that is not a leaf, the input `e` or `E` with a left child
present makes that left child the current room, and the input `d` or `D` with
a right child present makes that right child the current room; in both cases
the explorer is still active, one character has been read and nothing but the
room header and the menu has been printed. -/
theorem passo_move_para_filho (nome : String) (esquerda direita : Sala) (lido : Char)
    (resto : List Char) (saida : List String)
    (hf : ¬(esquerda = Sala.NULL ∧ direita = Sala.NULL)) :
    ((lido = 'e' ∨ lido = 'E') → esquerda ≠ Sala.NULL →
      passo ⟨Estado.ativo, Sala.sala nome esquerda direita, lido :: resto, saida⟩
        = ⟨Estado.ativo, esquerda, resto,
            saida ++ cabecalho nome ++ menu esquerda direita⟩) ∧
    ((lido = 'd' ∨ lido = 'D') → direita ≠ Sala.NULL →
      passo ⟨Estado.ativo, Sala.sala nome esquerda direita, lido :: resto, saida⟩
        = ⟨Estado.ativo, direita, resto,
            saida ++ cabecalho nome ++ menu esquerda direita⟩) := by
  constructor
  · intro hl he
    have h1 : tolower lido = 'e' := (tolower_eq_e lido).2 hl
    have h2 : ¬ tolower lido = 's' := by rw [h1]; decide
    rw [passo_escolha _ _ _ _ _ _ hf, if_neg h2, if_pos h1, if_pos he]
  · intro hl hd
    have h1 : tolower lido = 'd' := (tolower_eq_d lido).2 hl
    have h2 : ¬ tolower lido = 's' := by rw [h1]; decide
    have h3 : ¬ tolower lido = 'e' := by rw [h1]; decide
    rw [passo_escolha _ _ _ _ _ _ hf, if_neg h2, if_neg h3, if_pos h1, if_pos hd]

/-- Witness of C1: at "Jardim", whose only child is "Piscina" on the left, the
input `E` moves to "Piscina". -/
theorem passo_move_para_filho_witness :
    ¬(Sala.sala "Piscina" Sala.NULL Sala.NULL = Sala.NULL ∧ Sala.NULL = Sala.NULL) ∧
    passo ⟨Estado.ativo,
        Sala.sala "Jardim" (Sala.sala "Piscina" Sala.NULL Sala.NULL) Sala.NULL,
        ['E', 'x'], []⟩
      = ⟨Estado.ativo, Sala.sala "Piscina" Sala.NULL Sala.NULL, ['x'],
          [] ++ cabecalho "Jardim"
            ++ menu (Sala.sala "Piscina" Sala.NULL Sala.NULL) Sala.NULL⟩ :=
  ⟨by decide,
    (passo_move_para_filho "Jardim" (Sala.sala "Piscina" Sala.NULL Sala.NULL) Sala.NULL
      'E' ['x'] [] (by decide)).1 (Or.inr rfl) (by decide)⟩

/-- C2 as stated fails: from "Hall de Entrada" the inputs `d`, `d`, `d` lead to
"Cozinha" and "Jardim", and there the third `d` finds no right child: the
current room is "Jardim", not "Piscina", and the loop has not terminated. -/
theorem cenario_ddd_contraexemplo :
    montarMapa.map (fun hall => explorarSalas hall ['d', 'd', 'd'])
      = some ⟨Estado.aguardando, Sala.sala "Jardim" (Sala.sala "Piscina" Sala.NULL Sala.NULL) Sala.NULL, [],
          [linha, "VOCÊ ESTÁ EM: Hall de Entrada\n", linha, msgCaminhos,
            "  [e] Esquerda -> Sala de Estar\n", "  [d] Direita -> Cozinha\n",
            msgOpcaoSair, msgPrompt,
            linha, "VOCÊ ESTÁ EM: Cozinha\n", linha, msgCaminhos,
            "  [e] Esquerda -> Despensa\n", "  [d] Direita -> Jardim\n",
            msgOpcaoSair, msgPrompt,
            linha, "VOCÊ ESTÁ EM: Jardim\n", linha, msgCaminhos,
            "  [e] Esquerda -> Piscina\n",
            msgOpcaoSair, msgPrompt,
            msgErroDireita,
            linha, "VOCÊ ESTÁ EM: Jardim\n", linha, msgCaminhos,
            "  [e] Esquerda -> Piscina\n",
            msgOpcaoSair, msgPrompt]⟩ ∧
    montarMapa.map (fun hall => (explorarSalas hall ['d', 'd', 'd']).salaAtual)
      ≠ some (Sala.sala "Piscina" Sala.NULL Sala.NULL) ∧
    montarMapa.map (fun hall => (explorarSalas hall ['d', 'd', 'd']).estado)
      ≠ some Estado.terminado := by
  decide

/-- C2, amended: from the root "Hall de Entrada" the inputs `d`, `d`, `d` leave
the explorer active at "Jardim", the third `d` being answered by the "no path
to the right" message; "Piscina" is the left child of "Jardim", and it is the
inputs `d`, `d`, `e` that make it the current room, where the loop terminates
without reading further. -/
theorem cenario_dde_piscina (extra : List Char) :
    ∃ esquerda direita,
      montarMapa = some (Sala.sala "Hall de Entrada" esquerda direita) ∧
      executar 3 (inicial (Sala.sala "Hall de Entrada" esquerda direita)
          ('d' :: 'd' :: 'd' :: extra))
        = ⟨Estado.ativo, Sala.sala "Jardim" (Sala.sala "Piscina" Sala.NULL Sala.NULL) Sala.NULL, extra,
          [linha, "VOCÊ ESTÁ EM: Hall de Entrada\n", linha, msgCaminhos,
            "  [e] Esquerda -> Sala de Estar\n", "  [d] Direita -> Cozinha\n",
            msgOpcaoSair, msgPrompt,
            linha, "VOCÊ ESTÁ EM: Cozinha\n", linha, msgCaminhos,
            "  [e] Esquerda -> Despensa\n", "  [d] Direita -> Jardim\n",
            msgOpcaoSair, msgPrompt,
            linha, "VOCÊ ESTÁ EM: Jardim\n", linha, msgCaminhos,
            "  [e] Esquerda -> Piscina\n",
            msgOpcaoSair, msgPrompt,
            msgErroDireita]⟩ ∧
      explorarSalas (Sala.sala "Hall de Entrada" esquerda direita)
          ('d' :: 'd' :: 'e' :: extra)
        = ⟨Estado.terminado, Sala.sala "Piscina" Sala.NULL Sala.NULL, extra,
          [linha, "VOCÊ ESTÁ EM: Hall de Entrada\n", linha, msgCaminhos,
            "  [e] Esquerda -> Sala de Estar\n", "  [d] Direita -> Cozinha\n",
            msgOpcaoSair, msgPrompt,
            linha, "VOCÊ ESTÁ EM: Cozinha\n", linha, msgCaminhos,
            "  [e] Esquerda -> Despensa\n", "  [d] Direita -> Jardim\n",
            msgOpcaoSair, msgPrompt,
            linha, "VOCÊ ESTÁ EM: Jardim\n", linha, msgCaminhos,
            "  [e] Esquerda -> Piscina\n",
            msgOpcaoSair, msgPrompt,
            linha, "VOCÊ ESTÁ EM: Piscina\n", linha, msgFim, msgSemCaminhos]⟩ := by
  refine ⟨_, _, montarMapa_eq, ?_⟩
  simp only [explorarSalas, inicial, List.length_cons, executar]
  simp +decide only [passo, tolower_e, tolower_d, tolower_s, if_true, if_false, and_self,
    and_false, false_and, reduceCtorEq, ne_eq, not_false_eq_true, not_true_eq_false]
  rw [executar_de_parado _ _ (by simp)]
  simp only [Config.mk.injEq, true_and]
  decide

/-- C3: at a room that is not a leaf, a direction whose child is absent leaves
the current room as it was and the explorer active, and the last thing printed
is the "no path" message of that direction: the text of line 125 for the left,
the text of line 131 for the right. -/
theorem passo_sem_caminho (nome : String) (esquerda direita : Sala) (lido : Char)
    (resto : List Char) (saida : List String)
    (hf : ¬(esquerda = Sala.NULL ∧ direita = Sala.NULL)) :
    ((lido = 'e' ∨ lido = 'E') → esquerda = Sala.NULL →
      passo ⟨Estado.ativo, Sala.sala nome esquerda direita, lido :: resto, saida⟩
        = ⟨Estado.ativo, Sala.sala nome esquerda direita, resto,
            saida ++ cabecalho nome ++ menu esquerda direita
              ++ ["\n--- ERRO: Não há caminho à esquerda neste cômodo! ---\n\n"]⟩) ∧
    ((lido = 'd' ∨ lido = 'D') → direita = Sala.NULL →
      passo ⟨Estado.ativo, Sala.sala nome esquerda direita, lido :: resto, saida⟩
        = ⟨Estado.ativo, Sala.sala nome esquerda direita, resto,
            saida ++ cabecalho nome ++ menu esquerda direita
              ++ ["\n--- ERRO: Não há caminho à direita neste cômodo! ---\n\n"]⟩) := by
  constructor
  · intro hl he
    have h1 : tolower lido = 'e' := (tolower_eq_e lido).2 hl
    have h2 : ¬ tolower lido = 's' := by rw [h1]; decide
    rw [passo_escolha _ _ _ _ _ _ hf, if_neg h2, if_pos h1, if_neg (not_not.2 he)]
    rfl
  · intro hl hd
    have h1 : tolower lido = 'd' := (tolower_eq_d lido).2 hl
    have h2 : ¬ tolower lido = 's' := by rw [h1]; decide
    have h3 : ¬ tolower lido = 'e' := by rw [h1]; decide
    rw [passo_escolha _ _ _ _ _ _ hf, if_neg h2, if_neg h3, if_pos h1,
      if_neg (not_not.2 hd)]
    rfl

/-- Witness of C3: at "Jardim", which has no right child, the input `d` stays
at "Jardim" and prints the message of line 131. -/
theorem passo_sem_caminho_witness :
    ¬(Sala.sala "Piscina" Sala.NULL Sala.NULL = Sala.NULL ∧ Sala.NULL = Sala.NULL) ∧
    passo ⟨Estado.ativo,
        Sala.sala "Jardim" (Sala.sala "Piscina" Sala.NULL Sala.NULL) Sala.NULL,
        ['d'], []⟩
      = ⟨Estado.ativo,
          Sala.sala "Jardim" (Sala.sala "Piscina" Sala.NULL Sala.NULL) Sala.NULL, [],
          [] ++ cabecalho "Jardim"
            ++ menu (Sala.sala "Piscina" Sala.NULL Sala.NULL) Sala.NULL
            ++ ["\n--- ERRO: Não há caminho à direita neste cômodo! ---\n\n"]⟩ :=
  ⟨by decide,
    (passo_sem_caminho "Jardim" (Sala.sala "Piscina" Sala.NULL Sala.NULL) Sala.NULL
      'd' [] [] (by decide)).2 (Or.inl rfl) rfl⟩

/-- C4: the iteration ends the loop by the leaf branch (nothing read, the two
closing messages printed) exactly when both children of the current room are
absent; a room with at least one child never ends the loop that way: there the
iteration terminates only when a character was read and it was `s` or `S`. -/
theorem folha_sse_sem_filhos (nome : String) (esquerda direita : Sala)
    (entrada : List Char) (saida : List String) :
    (passo ⟨Estado.ativo, Sala.sala nome esquerda direita, entrada, saida⟩
        = ⟨Estado.terminado, Sala.sala nome esquerda direita, entrada,
            saida ++ cabecalho nome ++ [msgFim, msgSemCaminhos]⟩
      ↔ (esquerda = Sala.NULL ∧ direita = Sala.NULL)) ∧
    (¬(esquerda = Sala.NULL ∧ direita = Sala.NULL) →
      ((passo ⟨Estado.ativo, Sala.sala nome esquerda direita, entrada, saida⟩).estado
          = Estado.terminado
        ↔ ∃ lido resto, entrada = lido :: resto ∧ (lido = 's' ∨ lido = 'S'))) := by
  constructor
  · constructor
    · intro h
      by_contra hf
      cases entrada with
      | nil =>
        rw [passo_aguarda _ _ _ _ hf] at h
        have hest := congrArg Config.estado h
        simp at hest
      | cons lido resto =>
        rw [passo_escolha _ _ _ _ _ _ hf] at h
        have hlen := congrArg (fun c => c.entrada.length) h
        revert hlen
        split_ifs <;> simp
    · rintro ⟨rfl, rfl⟩
      exact passo_folha nome entrada saida
  · intro hf
    cases entrada with
    | nil =>
      rw [passo_aguarda _ _ _ _ hf]
      simp
    | cons lido resto =>
      rw [passo_escolha _ _ _ _ _ _ hf]
      by_cases hs : tolower lido = 's'
      · rw [if_pos hs]
        simpa using (tolower_eq_s lido).1 hs
      · rw [if_neg hs]
        have hn : ¬(lido = 's' ∨ lido = 'S') := fun h => hs ((tolower_eq_s lido).2 h)
        split_ifs <;> simpa using hn

/-- Witness of C4: "Jardim" has only a left child; with nothing to read the
iteration does not terminate the loop. -/
theorem folha_sse_sem_filhos_witness :
    ¬(Sala.sala "Piscina" Sala.NULL Sala.NULL = Sala.NULL ∧ Sala.NULL = Sala.NULL) ∧
    ¬((passo ⟨Estado.ativo,
        Sala.sala "Jardim" (Sala.sala "Piscina" Sala.NULL Sala.NULL) Sala.NULL,
        [], []⟩).estado = Estado.terminado) :=
  ⟨by decide, fun h =>
    absurd (((folha_sse_sem_filhos "Jardim" (Sala.sala "Piscina" Sala.NULL Sala.NULL)
      Sala.NULL [] []).2 (by decide)).1 h) (by simp)⟩

/-- C5: whatever the current room and its children, when the next input is `s`
or `S` the iteration ends the loop with the current room unchanged; at a room
that has a path the character is read and the farewell of line 119 is the
last thing printed. -/
theorem passo_sair (nome : String) (esquerda direita : Sala) (lido : Char)
    (resto : List Char) (saida : List String) (hl : lido = 's' ∨ lido = 'S') :
    (passo ⟨Estado.ativo, Sala.sala nome esquerda direita, lido :: resto, saida⟩).estado
        = Estado.terminado ∧
    (passo ⟨Estado.ativo, Sala.sala nome esquerda direita, lido :: resto, saida⟩).salaAtual
        = Sala.sala nome esquerda direita ∧
    (¬(esquerda = Sala.NULL ∧ direita = Sala.NULL) →
      passo ⟨Estado.ativo, Sala.sala nome esquerda direita, lido :: resto, saida⟩
        = ⟨Estado.terminado, Sala.sala nome esquerda direita, resto,
            saida ++ cabecalho nome ++ menu esquerda direita ++ [msgSaindo]⟩) := by
  have hs : tolower lido = 's' := (tolower_eq_s lido).2 hl
  by_cases hf : esquerda = Sala.NULL ∧ direita = Sala.NULL
  · obtain ⟨rfl, rfl⟩ := hf
    rw [passo_folha]
    simp
  · rw [passo_escolha _ _ _ _ _ _ hf, if_pos hs]
    simp

/-- Witness of C5: quitting with `S` at "Jardim". -/
theorem passo_sair_witness :
    ('S' = 's' ∨ 'S' = 'S') ∧
    (passo ⟨Estado.ativo,
        Sala.sala "Jardim" (Sala.sala "Piscina" Sala.NULL Sala.NULL) Sala.NULL,
        ['S', 'e'], []⟩).estado = Estado.terminado :=
  ⟨Or.inr rfl,
    (passo_sair "Jardim" (Sala.sala "Piscina" Sala.NULL Sala.NULL) Sala.NULL
      'S' ['e'] [] (Or.inr rfl)).1⟩

/-- C6 as stated fails at a leaf: with the invalid character `x` pending at
"Biblioteca" the iteration ends the loop, reads nothing and does not print the
"ESCOLHA INVÁLIDA" message. -/
theorem invalida_na_folha_contraexemplo :
    'x' ∉ ['e', 'E', 'd', 'D', 's', 'S'] ∧
    passo ⟨Estado.ativo, Sala.sala "Biblioteca" Sala.NULL Sala.NULL, ['x'], []⟩
      = ⟨Estado.terminado, Sala.sala "Biblioteca" Sala.NULL Sala.NULL, ['x'],
          [linha, msgSala "Biblioteca", linha, msgFim, msgSemCaminhos]⟩ ∧
    (passo ⟨Estado.ativo, Sala.sala "Biblioteca" Sala.NULL Sala.NULL, ['x'], []⟩).estado
      ≠ Estado.ativo ∧
    "\n--- ESCOLHA INVÁLIDA: Por favor, digite \x27e\x27, \x27d\x27 ou \x27s\x27. ---\n\n" ∉
      (passo ⟨Estado.ativo, Sala.sala "Biblioteca" Sala.NULL Sala.NULL, ['x'], []⟩).saida := by
  decide

/-- C6, amended: at a room that is not a leaf, a character outside
`e E d D s S` leaves the current room as it was and the explorer active, and
the last thing printed is the "ESCOLHA INVÁLIDA" message of line 134; at a
leaf the
character is not read: the loop ends with the current room unchanged. -/
theorem passo_invalida (nome : String) (esquerda direita : Sala) (lido : Char)
    (resto : List Char) (saida : List String)
    (hl : lido ∉ ['e', 'E', 'd', 'D', 's', 'S']) :
    (¬(esquerda = Sala.NULL ∧ direita = Sala.NULL) →
      passo ⟨Estado.ativo, Sala.sala nome esquerda direita, lido :: resto, saida⟩
        = ⟨Estado.ativo, Sala.sala nome esquerda direita, resto,
            saida ++ cabecalho nome ++ menu esquerda direita
              ++ ["\n--- ESCOLHA INVÁLIDA: Por favor, digite \x27e\x27, \x27d\x27 ou \x27s\x27. ---\n\n"]⟩) ∧
    ((esquerda = Sala.NULL ∧ direita = Sala.NULL) →
      passo ⟨Estado.ativo, Sala.sala nome esquerda direita, lido :: resto, saida⟩
        = ⟨Estado.terminado, Sala.sala nome esquerda direita, lido :: resto,
            saida ++ cabecalho nome ++ [msgFim, msgSemCaminhos]⟩) := by
  simp only [List.mem_cons, List.mem_singleton, List.not_mem_nil, or_false, not_or] at hl
  obtain ⟨he, hE, hd, hD, hs, hS⟩ := hl
  have h1 : ¬ tolower lido = 's' := fun h => ((tolower_eq_s lido).1 h).elim hs hS
  have h2 : ¬ tolower lido = 'e' := fun h => ((tolower_eq_e lido).1 h).elim he hE
  have h3 : ¬ tolower lido = 'd' := fun h => ((tolower_eq_d lido).1 h).elim hd hD
  constructor
  · intro hf
    rw [passo_escolha _ _ _ _ _ _ hf, if_neg h1, if_neg h2, if_neg h3]
    rfl
  · rintro ⟨rfl, rfl⟩
    exact passo_folha nome (lido :: resto) saida

/-- Witness of the amended C6: the character `x` at "Jardim". -/
theorem passo_invalida_witness :
    'x' ∉ ['e', 'E', 'd', 'D', 's', 'S'] ∧
    ¬(Sala.sala "Piscina" Sala.NULL Sala.NULL = Sala.NULL ∧ Sala.NULL = Sala.NULL) ∧
    passo ⟨Estado.ativo,
        Sala.sala "Jardim" (Sala.sala "Piscina" Sala.NULL Sala.NULL) Sala.NULL,
        ['x', 'e'], []⟩
      = ⟨Estado.ativo,
          Sala.sala "Jardim" (Sala.sala "Piscina" Sala.NULL Sala.NULL) Sala.NULL, ['e'],
          [] ++ cabecalho "Jardim"
            ++ menu (Sala.sala "Piscina" Sala.NULL Sala.NULL) Sala.NULL
            ++ ["\n--- ESCOLHA INVÁLIDA: Por favor, digite \x27e\x27, \x27d\x27 ou \x27s\x27. ---\n\n"]⟩ :=
  ⟨by decide, by decide,
    (passo_invalida "Jardim" (Sala.sala "Piscina" Sala.NULL Sala.NULL) Sala.NULL
      'x' ['e'] [] (by decide)).1 (by decide)⟩

/-- C7: from the root "Hall de Entrada" the inputs `e`, `e`, `e` make
"Biblioteca" the current room after three iterations; it is a leaf, and the
run terminates there by the leaf branch, leaving whatever follows the three
characters unread. -/
theorem cenario_eee_biblioteca (extra : List Char) :
    ∃ esquerda direita,
      montarMapa = some (Sala.sala "Hall de Entrada" esquerda direita) ∧
      executar 3 (inicial (Sala.sala "Hall de Entrada" esquerda direita)
          ('e' :: 'e' :: 'e' :: extra))
        = ⟨Estado.ativo, Sala.sala "Biblioteca" Sala.NULL Sala.NULL, extra,
          [linha, "VOCÊ ESTÁ EM: Hall de Entrada\n", linha, msgCaminhos,
            "  [e] Esquerda -> Sala de Estar\n", "  [d] Direita -> Cozinha\n",
            msgOpcaoSair, msgPrompt,
            linha, "VOCÊ ESTÁ EM: Sala de Estar\n", linha, msgCaminhos,
            "  [e] Esquerda -> Escritorio\n", "  [d] Direita -> Sala de Jantar\n",
            msgOpcaoSair, msgPrompt,
            linha, "VOCÊ ESTÁ EM: Escritorio\n", linha, msgCaminhos,
            "  [e] Esquerda -> Biblioteca\n", "  [d] Direita -> Quarto Principal\n",
            msgOpcaoSair, msgPrompt]⟩ ∧
      explorarSalas (Sala.sala "Hall de Entrada" esquerda direita)
          ('e' :: 'e' :: 'e' :: extra)
        = ⟨Estado.terminado, Sala.sala "Biblioteca" Sala.NULL Sala.NULL, extra,
          [linha, "VOCÊ ESTÁ EM: Hall de Entrada\n", linha, msgCaminhos,
            "  [e] Esquerda -> Sala de Estar\n", "  [d] Direita -> Cozinha\n",
            msgOpcaoSair, msgPrompt,
            linha, "VOCÊ ESTÁ EM: Sala de Estar\n", linha, msgCaminhos,
            "  [e] Esquerda -> Escritorio\n", "  [d] Direita -> Sala de Jantar\n",
            msgOpcaoSair, msgPrompt,
            linha, "VOCÊ ESTÁ EM: Escritorio\n", linha, msgCaminhos,
            "  [e] Esquerda -> Biblioteca\n", "  [d] Direita -> Quarto Principal\n",
            msgOpcaoSair, msgPrompt,
            linha, "VOCÊ ESTÁ EM: Biblioteca\n", linha, msgFim, msgSemCaminhos]⟩ := by
  refine ⟨_, _, montarMapa_eq, ?_⟩
  simp only [explorarSalas, inicial, List.length_cons, executar]
  simp +decide only [passo, tolower_e, tolower_d, tolower_s, if_true, if_false, and_self,
    and_false, false_and, reduceCtorEq, ne_eq, not_false_eq_true, not_true_eq_false]
  rw [executar_de_parado _ _ (by simp)]
  simp only [Config.mk.injEq, true_and]
  decide

/-- C8: from the root the inputs `d`, `d` make "Jardim" the current room, which
has a left child: the explorer is still active there, and with nothing more to
read it waits instead of terminating; the input `s` then ends the loop with
"Jardim" still the current room, the farewell being the last thing printed. -/
theorem cenario_dds_jardim (extra : List Char) :
    ∃ esquerda direita,
      montarMapa = some (Sala.sala "Hall de Entrada" esquerda direita) ∧
      executar 2 (inicial (Sala.sala "Hall de Entrada" esquerda direita)
          ('d' :: 'd' :: 's' :: extra))
        = ⟨Estado.ativo, Sala.sala "Jardim" (Sala.sala "Piscina" Sala.NULL Sala.NULL) Sala.NULL, 's' :: extra,
          [linha, "VOCÊ ESTÁ EM: Hall de Entrada\n", linha, msgCaminhos,
            "  [e] Esquerda -> Sala de Estar\n", "  [d] Direita -> Cozinha\n",
            msgOpcaoSair, msgPrompt,
            linha, "VOCÊ ESTÁ EM: Cozinha\n", linha, msgCaminhos,
            "  [e] Esquerda -> Despensa\n", "  [d] Direita -> Jardim\n",
            msgOpcaoSair, msgPrompt]⟩ ∧
      explorarSalas (Sala.sala "Hall de Entrada" esquerda direita) ['d', 'd']
        = ⟨Estado.aguardando, Sala.sala "Jardim" (Sala.sala "Piscina" Sala.NULL Sala.NULL) Sala.NULL, [],
          [linha, "VOCÊ ESTÁ EM: Hall de Entrada\n", linha, msgCaminhos,
            "  [e] Esquerda -> Sala de Estar\n", "  [d] Direita -> Cozinha\n",
            msgOpcaoSair, msgPrompt,
            linha, "VOCÊ ESTÁ EM: Cozinha\n", linha, msgCaminhos,
            "  [e] Esquerda -> Despensa\n", "  [d] Direita -> Jardim\n",
            msgOpcaoSair, msgPrompt,
            linha, "VOCÊ ESTÁ EM: Jardim\n", linha, msgCaminhos,
            "  [e] Esquerda -> Piscina\n",
            msgOpcaoSair, msgPrompt]⟩ ∧
      explorarSalas (Sala.sala "Hall de Entrada" esquerda direita)
          ('d' :: 'd' :: 's' :: extra)
        = ⟨Estado.terminado, Sala.sala "Jardim" (Sala.sala "Piscina" Sala.NULL Sala.NULL) Sala.NULL, extra,
          [linha, "VOCÊ ESTÁ EM: Hall de Entrada\n", linha, msgCaminhos,
            "  [e] Esquerda -> Sala de Estar\n", "  [d] Direita -> Cozinha\n",
            msgOpcaoSair, msgPrompt,
            linha, "VOCÊ ESTÁ EM: Cozinha\n", linha, msgCaminhos,
            "  [e] Esquerda -> Despensa\n", "  [d] Direita -> Jardim\n",
            msgOpcaoSair, msgPrompt,
            linha, "VOCÊ ESTÁ EM: Jardim\n", linha, msgCaminhos,
            "  [e] Esquerda -> Piscina\n",
            msgOpcaoSair, msgPrompt,
            msgSaindo]⟩ := by
  refine ⟨_, _, montarMapa_eq, ?_⟩
  simp only [explorarSalas, inicial, List.length_cons, executar]
  simp +decide only [passo, tolower_e, tolower_d, tolower_s, if_true, if_false, and_self,
    and_false, false_and, reduceCtorEq, ne_eq, not_false_eq_true, not_true_eq_false]
  rw [executar_de_parado _ _ (by simp)]
  simp only [Config.mk.injEq, true_and]
  decide

/-- C9: two inputs that differ only in the letter case of their characters
drive the explorer alike: after every number of iterations the two runs have
the same status, the same current room, the same output and as many
characters left to read, and the two complete runs end in the same status,
room and output. -/
theorem explorar_sem_distincao_de_caixa (raiz : Sala) (xs ys : List Char)
    (h : List.Forall₂ mesmaLetra xs ys) :
    (∀ n : Nat,
      (executar n (inicial raiz xs)).estado = (executar n (inicial raiz ys)).estado ∧
      (executar n (inicial raiz xs)).salaAtual = (executar n (inicial raiz ys)).salaAtual ∧
      (executar n (inicial raiz xs)).saida = (executar n (inicial raiz ys)).saida ∧
      (executar n (inicial raiz xs)).entrada.length
        = (executar n (inicial raiz ys)).entrada.length) ∧
    (explorarSalas raiz xs).estado = (explorarSalas raiz ys).estado ∧
    (explorarSalas raiz xs).salaAtual = (explorarSalas raiz ys).salaAtual ∧
    (explorarSalas raiz xs).saida = (explorarSalas raiz ys).saida := by
  have h0 : mesmaConfig (inicial raiz xs) (inicial raiz ys) := ⟨rfl, rfl, rfl, h⟩
  constructor
  · intro n
    obtain ⟨h1, h2, h3, h4⟩ := executar_mesmaConfig n _ _ h0
    exact ⟨h1, h2, h3, h4.length_eq⟩
  · have hlen : xs.length = ys.length := h.length_eq
    obtain ⟨h1, h2, h3, _⟩ := executar_mesmaConfig (xs.length + 1) _ _ h0
    unfold explorarSalas
    rw [← hlen]
    exact ⟨h1, h2, h3⟩

/-- Witness of C9: the inputs `D`, `d`, `S` and `d`, `D`, `s` from the same
room end in the same status. -/
theorem explorar_sem_distincao_de_caixa_witness :
    List.Forall₂ mesmaLetra ['D', 'd', 'S'] ['d', 'D', 's'] ∧
    (explorarSalas (Sala.sala "Jardim" (Sala.sala "Piscina" Sala.NULL Sala.NULL) Sala.NULL)
        ['D', 'd', 'S']).estado
      = (explorarSalas (Sala.sala "Jardim" (Sala.sala "Piscina" Sala.NULL Sala.NULL) Sala.NULL)
        ['d', 'D', 's']).estado :=
  have hw : List.Forall₂ mesmaLetra ['D', 'd', 'S'] ['d', 'D', 's'] :=
    List.Forall₂.cons (Or.inr (Or.inl (by decide)))
      (List.Forall₂.cons (Or.inr (Or.inr (by decide)))
        (List.Forall₂.cons (Or.inr (Or.inl (by decide))) List.Forall₂.nil))
  ⟨hw, (explorar_sem_distincao_de_caixa _ _ _ hw).2.1⟩

/-- C10: `criarSala` returns a room exactly when both allocations succeed, and
then the room bears the given name and has no children; such a room is a leaf:
the explorer started on it prints its header and the closing messages and
terminates without reading anything. -/
theorem criarSala_folha (malloc strdup : Bool) (nome : String) (entrada : List Char) :
    criarSala true true nome = some (Sala.sala nome Sala.NULL Sala.NULL) ∧
    criarSala malloc strdup nome
      = (if malloc && strdup then some (Sala.sala nome Sala.NULL Sala.NULL) else none) ∧
    (criarSala true true nome).map (fun nova => explorarSalas nova entrada)
      = some ⟨Estado.terminado, Sala.sala nome Sala.NULL Sala.NULL, entrada,
          cabecalho nome ++ [msgFim, msgSemCaminhos]⟩ := by
  refine ⟨rfl, ?_, ?_⟩
  · cases malloc <;> cases strdup <;> rfl
  · simp [criarSala, explorarSalas_folha]

/-- C11: an iteration at a room that has a path prints, before anything that
answers the input, the header with the name of the room, the heading of the
menu, the line of the left option exactly when the left child exists, the line
of the right option exactly when the right child exists, the quit option and
the prompt, which contains `(e/d/s)`; with nothing to read that is all it
prints, and what follows otherwise is at most one answer to the character
read.  At a leaf the header with the name is printed before the closing
messages. -/
theorem saida_antes_da_leitura (nome : String) (esquerda direita : Sala)
    (entrada : List Char) (saida : List String) :
    (¬(esquerda = Sala.NULL ∧ direita = Sala.NULL) →
      ∃ opE opD resposta,
        (passo ⟨Estado.ativo, Sala.sala nome esquerda direita, entrada, saida⟩).saida
          = saida ++ [linha, "VOCÊ ESTÁ EM: " ++ nome ++ "\n", linha,
                "Caminhos disponiveis:\n"]
              ++ opE ++ opD ++ ["  [s] Sair do jogo\n", "Sua escolha (e/d/s): "]
              ++ resposta ∧
        ((esquerda = Sala.NULL ∧ opE = []) ∨
          ∃ n l r, esquerda = Sala.sala n l r ∧ opE = ["  [e] Esquerda -> " ++ n ++ "\n"]) ∧
        ((direita = Sala.NULL ∧ opD = []) ∨
          ∃ n l r, direita = Sala.sala n l r ∧ opD = ["  [d] Direita -> " ++ n ++ "\n"]) ∧
        (entrada = [] → resposta = []) ∧
        (resposta = [] ∨ resposta = [msgSaindo] ∨ resposta = [msgErroEsquerda]
          ∨ resposta = [msgErroDireita] ∨ resposta = [msgInvalida])) ∧
    ((esquerda = Sala.NULL ∧ direita = Sala.NULL) →
      passo ⟨Estado.ativo, Sala.sala nome esquerda direita, entrada, saida⟩
        = ⟨Estado.terminado, Sala.sala nome esquerda direita, entrada,
            saida ++ [linha, "VOCÊ ESTÁ EM: " ++ nome ++ "\n", linha,
              msgFim, msgSemCaminhos]⟩) ∧
    (∃ antes depois, msgPrompt = antes ++ "(e/d/s)" ++ depois) := by
  refine ⟨fun hf => ?_, ?_, ⟨"Sua escolha ", ": ", by decide⟩⟩
  · refine ⟨opcaoEsquerda esquerda, opcaoDireita direita, ?_⟩
    have hE : (esquerda = Sala.NULL ∧ opcaoEsquerda esquerda = []) ∨
        ∃ n l r, esquerda = Sala.sala n l r ∧
          opcaoEsquerda esquerda = ["  [e] Esquerda -> " ++ n ++ "\n"] := by
      cases esquerda with
      | NULL => exact Or.inl ⟨rfl, rfl⟩
      | sala n l r => exact Or.inr ⟨n, l, r, rfl, rfl⟩
    have hD : (direita = Sala.NULL ∧ opcaoDireita direita = []) ∨
        ∃ n l r, direita = Sala.sala n l r ∧
          opcaoDireita direita = ["  [d] Direita -> " ++ n ++ "\n"] := by
      cases direita with
      | NULL => exact Or.inl ⟨rfl, rfl⟩
      | sala n l r => exact Or.inr ⟨n, l, r, rfl, rfl⟩
    cases entrada with
    | nil =>
      refine ⟨[], ?_, hE, hD, fun _ => rfl, Or.inl rfl⟩
      rw [passo_aguarda _ _ _ _ hf]
      simp [cabecalho, menu, msgSala, msgCaminhos, msgOpcaoSair, msgPrompt]
    | cons lido resto =>
      rw [passo_escolha _ _ _ _ _ _ hf]
      split_ifs
      · exact ⟨[msgSaindo], by
          simp [cabecalho, menu, msgSala, msgCaminhos, msgOpcaoSair, msgPrompt],
          hE, hD, by simp, by simp⟩
      · exact ⟨[], by
          simp [cabecalho, menu, msgSala, msgCaminhos, msgOpcaoSair, msgPrompt],
          hE, hD, by simp, by simp⟩
      · exact ⟨[msgErroEsquerda], by
          simp [cabecalho, menu, msgSala, msgCaminhos, msgOpcaoSair, msgPrompt],
          hE, hD, by simp, by simp⟩
      · exact ⟨[], by
          simp [cabecalho, menu, msgSala, msgCaminhos, msgOpcaoSair, msgPrompt],
          hE, hD, by simp, by simp⟩
      · exact ⟨[msgErroDireita], by
          simp [cabecalho, menu, msgSala, msgCaminhos, msgOpcaoSair, msgPrompt],
          hE, hD, by simp, by simp⟩
      · exact ⟨[msgInvalida], by
          simp [cabecalho, menu, msgSala, msgCaminhos, msgOpcaoSair, msgPrompt],
          hE, hD, by simp, by simp⟩
  · rintro ⟨rfl, rfl⟩
    rw [passo_folha]
    simp [cabecalho, msgSala]

/-- Witness of C11: at "Jardim", which has only a left child, with nothing to
read the iteration prints the header, the heading, the left option alone, the
quit option and the prompt. -/
theorem saida_antes_da_leitura_witness :
    ¬(Sala.sala "Piscina" Sala.NULL Sala.NULL = Sala.NULL ∧ Sala.NULL = Sala.NULL) ∧
    ∃ opE opD resposta,
      (passo ⟨Estado.ativo,
          Sala.sala "Jardim" (Sala.sala "Piscina" Sala.NULL Sala.NULL) Sala.NULL,
          [], []⟩).saida
        = [] ++ [linha, "VOCÊ ESTÁ EM: " ++ "Jardim" ++ "\n", linha,
              "Caminhos disponiveis:\n"]
            ++ opE ++ opD ++ ["  [s] Sair do jogo\n", "Sua escolha (e/d/s): "]
            ++ resposta ∧
      ((Sala.sala "Piscina" Sala.NULL Sala.NULL = Sala.NULL ∧ opE = []) ∨
        ∃ n l r, Sala.sala "Piscina" Sala.NULL Sala.NULL = Sala.sala n l r ∧
          opE = ["  [e] Esquerda -> " ++ n ++ "\n"]) ∧
      ((Sala.NULL = Sala.NULL ∧ opD = []) ∨
        ∃ n l r, Sala.NULL = Sala.sala n l r ∧ opD = ["  [d] Direita -> " ++ n ++ "\n"]) ∧
      (([] : List Char) = [] → resposta = []) ∧
      (resposta = [] ∨ resposta = [msgSaindo] ∨ resposta = [msgErroEsquerda]
        ∨ resposta = [msgErroDireita] ∨ resposta = [msgInvalida]) :=
  ⟨by decide,
    (saida_antes_da_leitura "Jardim" (Sala.sala "Piscina" Sala.NULL Sala.NULL) Sala.NULL
      [] []).1 (by decide)⟩

/-- C12: the map built by `main` has eleven rooms; the five marked "Nó-folha"
in the source ("Sala de Jantar", "Despensa", "Biblioteca", "Piscina",
"Banheiro Privativo") have no children and the six others ("Hall de Entrada",
"Sala de Estar", "Cozinha", "Escritorio", "Jardim", "Quarto Principal") have
at least one; the five are also exactly the rooms at which an iteration of the
explorer terminates by itself. -/
theorem folhas_do_mapa :
    montarMapa.map (fun mapa => (todasSalas mapa).map (fun s => (nomeDe s, semFilhos s)))
      = some [("Hall de Entrada", false), ("Sala de Estar", false), ("Escritorio", false),
          ("Biblioteca", true), ("Quarto Principal", false), ("Banheiro Privativo", true),
          ("Sala de Jantar", true), ("Cozinha", false), ("Despensa", true),
          ("Jardim", false), ("Piscina", true)] ∧
    montarMapa.map (fun mapa =>
        (todasSalas mapa).all (fun s =>
          decide (nomeDe s ∈ ["Sala de Jantar", "Despensa", "Biblioteca", "Piscina",
              "Banheiro Privativo"])
            == semFilhos s))
      = some true ∧
    montarMapa.map (fun mapa =>
        (todasSalas mapa).all (fun s =>
          decide (nomeDe s ∈ ["Hall de Entrada", "Sala de Estar", "Cozinha", "Escritorio",
              "Jardim", "Quarto Principal"])
            == !semFilhos s))
      = some true ∧
    montarMapa.map (fun mapa =>
        (todasSalas mapa).all (fun s =>
          semFilhos s
            == decide ((passo ⟨Estado.ativo, s, [], []⟩).estado = Estado.terminado)))
      = some true ∧
    (∀ s : Sala, semFilhos s = true ↔ ∃ nome, s = Sala.sala nome Sala.NULL Sala.NULL) := by
  refine ⟨by decide, by decide, by decide, by decide, fun s => ?_⟩
  constructor
  · intro h
    match s, h with
    | Sala.sala nome Sala.NULL Sala.NULL, _ => exact ⟨nome, rfl⟩
  · rintro ⟨nome, rfl⟩
    rfl

/-- C13: in a run started at a room, after any number of iterations, and at
the end of the complete run: if the loop has been left, then the current room
has no children or the last character read was `s` or `S`.  An iteration at a
room that has a path which reads any other character (a move, a missing path,
an invalid choice) leaves the explorer active. -/
theorem para_so_em_folha_ou_saida (nome : String) (esquerda direita : Sala)
    (entrada : List Char) :
    (∀ n : Nat,
      (executar n (inicial (Sala.sala nome esquerda direita) entrada)).estado
          = Estado.terminado →
        (∃ folha, (executar n (inicial (Sala.sala nome esquerda direita) entrada)).salaAtual
            = Sala.sala folha Sala.NULL Sala.NULL) ∨
        (∃ antes lido,
          entrada = antes ++ lido ::
              (executar n (inicial (Sala.sala nome esquerda direita) entrada)).entrada ∧
          (lido = 's' ∨ lido = 'S'))) ∧
    ((explorarSalas (Sala.sala nome esquerda direita) entrada).estado = Estado.terminado →
      (∃ folha, (explorarSalas (Sala.sala nome esquerda direita) entrada).salaAtual
          = Sala.sala folha Sala.NULL Sala.NULL) ∨
      (∃ antes lido,
        entrada = antes ++ lido ::
            (explorarSalas (Sala.sala nome esquerda direita) entrada).entrada ∧
        (lido = 's' ∨ lido = 'S'))) ∧
    (∀ (lido : Char) (resto : List Char) (saida : List String),
      ¬(esquerda = Sala.NULL ∧ direita = Sala.NULL) → ¬(lido = 's' ∨ lido = 'S') →
        (passo ⟨Estado.ativo, Sala.sala nome esquerda direita, lido :: resto, saida⟩).estado
          = Estado.ativo) := by
  have hn : ∀ n : Nat,
      (executar n (inicial (Sala.sala nome esquerda direita) entrada)).estado
          = Estado.terminado →
        (∃ folha, (executar n (inicial (Sala.sala nome esquerda direita) entrada)).salaAtual
            = Sala.sala folha Sala.NULL Sala.NULL) ∨
        (∃ antes lido,
          entrada = antes ++ lido ::
              (executar n (inicial (Sala.sala nome esquerda direita) entrada)).entrada ∧
          (lido = 's' ∨ lido = 'S')) := by
    intro n ht
    obtain ⟨_, lidos, hx, hj⟩ := executar_paradaJustificada entrada n _
      (inicial_paradaJustificada nome esquerda direita entrada)
    rcases hj ht with hl | ⟨antes, lido, rfl, hl⟩
    · exact Or.inl hl
    · exact Or.inr ⟨antes, lido, by simpa using hx, hl⟩
  refine ⟨hn, hn _, ?_⟩
  intro lido resto saida hf hl
  have h1 : ¬ tolower lido = 's' := fun h => hl ((tolower_eq_s lido).1 h)
  rw [passo_escolha _ _ _ _ _ _ hf, if_neg h1]
  split_ifs <;> rfl

/-- Witness of C13: the run `d`, `s` from "Cozinha" is left at "Jardim", which
has a child, and the last character read is `s`. -/
theorem para_so_em_folha_ou_saida_witness :
    (explorarSalas (Sala.sala "Cozinha" (Sala.sala "Despensa" Sala.NULL Sala.NULL)
        (Sala.sala "Jardim" (Sala.sala "Piscina" Sala.NULL Sala.NULL) Sala.NULL))
      ['d', 's', 'e']).estado = Estado.terminado ∧
    ((∃ folha, (explorarSalas (Sala.sala "Cozinha" (Sala.sala "Despensa" Sala.NULL Sala.NULL)
          (Sala.sala "Jardim" (Sala.sala "Piscina" Sala.NULL Sala.NULL) Sala.NULL))
        ['d', 's', 'e']).salaAtual = Sala.sala folha Sala.NULL Sala.NULL) ∨
      (∃ antes lido,
        ['d', 's', 'e'] = antes ++ lido ::
          (explorarSalas (Sala.sala "Cozinha" (Sala.sala "Despensa" Sala.NULL Sala.NULL)
            (Sala.sala "Jardim" (Sala.sala "Piscina" Sala.NULL Sala.NULL) Sala.NULL))
          ['d', 's', 'e']).entrada ∧
        (lido = 's' ∨ lido = 'S'))) :=
  ⟨by decide,
    (para_so_em_folha_ou_saida "Cozinha" (Sala.sala "Despensa" Sala.NULL Sala.NULL)
      (Sala.sala "Jardim" (Sala.sala "Piscina" Sala.NULL Sala.NULL) Sala.NULL)
      ['d', 's', 'e']).2.1 (by decide)⟩

/-- C14: in a run started at a room, after any number of iterations the
current room is the room found from the starting room along the moves made so
far (so it lies at the depth given by their number), it is never the null
pointer, and the number of moves is at most the height of the tree; every
iteration either keeps the room and the path or adds one move and goes to the
child of the current room on that side; a room that was left is not entered
again; the map of `main` has five levels, so a run on it makes at most four
moves. -/
theorem caminho_invariante (nome : String) (esquerda direita : Sala)
    (entrada : List Char) :
    (∀ n : Nat,
      (executar n (inicial (Sala.sala nome esquerda direita) entrada)).salaAtual
        = subarvore (Sala.sala nome esquerda direita)
            (caminho n (inicial (Sala.sala nome esquerda direita) entrada)) ∧
      (executar n (inicial (Sala.sala nome esquerda direita) entrada)).salaAtual
        ≠ Sala.NULL ∧
      (caminho n (inicial (Sala.sala nome esquerda direita) entrada)).length
        ≤ altura (Sala.sala nome esquerda direita) - 1) ∧
    (∀ n : Nat,
      (caminho (n + 1) (inicial (Sala.sala nome esquerda direita) entrada)
          = caminho n (inicial (Sala.sala nome esquerda direita) entrada) ∧
        (executar (n + 1) (inicial (Sala.sala nome esquerda direita) entrada)).salaAtual
          = (executar n (inicial (Sala.sala nome esquerda direita) entrada)).salaAtual) ∨
      (∃ x,
        caminho (n + 1) (inicial (Sala.sala nome esquerda direita) entrada)
          = caminho n (inicial (Sala.sala nome esquerda direita) entrada) ++ [x] ∧
        (executar (n + 1) (inicial (Sala.sala nome esquerda direita) entrada)).salaAtual
          = filho x
              (executar n (inicial (Sala.sala nome esquerda direita) entrada)).salaAtual)) ∧
    (∀ i j k : Nat, i ≤ j → j ≤ k →
      caminho i (inicial (Sala.sala nome esquerda direita) entrada)
        = caminho k (inicial (Sala.sala nome esquerda direita) entrada) →
      caminho j (inicial (Sala.sala nome esquerda direita) entrada)
        = caminho i (inicial (Sala.sala nome esquerda direita) entrada)) ∧
    montarMapa.map altura = some 5 ∧
    (montarMapa = some (Sala.sala nome esquerda direita) →
      ∀ n : Nat,
        (caminho n (inicial (Sala.sala nome esquerda direita) entrada)).length ≤ 4) := by
  have hsub : ∀ n : Nat,
      (executar n (inicial (Sala.sala nome esquerda direita) entrada)).salaAtual
        = subarvore (Sala.sala nome esquerda direita)
            (caminho n (inicial (Sala.sala nome esquerda direita) entrada)) :=
    fun n => executar_subarvore n _
  have hnn : ∀ n : Nat,
      (executar n (inicial (Sala.sala nome esquerda direita) entrada)).salaAtual
        ≠ Sala.NULL :=
    fun n => (executar_paradaJustificada entrada n _
      (inicial_paradaJustificada nome esquerda direita entrada)).1
  have halt : ∀ n : Nat,
      (caminho n (inicial (Sala.sala nome esquerda direita) entrada)).length + 1
        ≤ altura (Sala.sala nome esquerda direita) := by
    intro n
    apply subarvore_altura
    rw [← hsub n]
    exact hnn n
  refine ⟨fun n => ⟨hsub n, hnn n, by have := halt n; omega⟩, ?_, ?_, by decide, ?_⟩
  · intro n
    rw [caminho_soma n 1, caminho_um, executar_succ]
    rcases passo_movimento (executar n (inicial (Sala.sala nome esquerda direita) entrada))
      with ⟨h1, h2⟩ | ⟨x, h1, h2, _⟩
    · exact Or.inl ⟨by rw [h1]; simp, h2⟩
    · exact Or.inr ⟨x, by rw [h1]; rfl, h2⟩
  · intro i j k hij hjk hik
    obtain ⟨q, hq⟩ := caminho_prefixo i j (inicial (Sala.sala nome esquerda direita) entrada) hij
    obtain ⟨r, hr⟩ := caminho_prefixo j k (inicial (Sala.sala nome esquerda direita) entrada) hjk
    have hlen := congrArg List.length hr
    rw [← hik, hq] at hlen
    simp only [List.length_append] at hlen
    have hq0 : q = [] := List.eq_nil_of_length_eq_zero (by omega)
    rw [hq, hq0, List.append_nil]
  · intro hm n
    have h5 : altura (Sala.sala nome esquerda direita) = 5 := by
      have h := congrArg (Option.map altura) hm
      rw [show montarMapa.map altura = some 5 by decide] at h
      simpa using h.symm
    have := halt n
    omega

/-- Witness of C14: on the map of `main` the run `e`, `e`, `d`, `d` has made at
most four moves after five iterations. -/
theorem caminho_invariante_witness :
    montarMapa = some
      (Sala.sala "Hall de Entrada"
        (Sala.sala "Sala de Estar"
          (Sala.sala "Escritorio"
            (Sala.sala "Biblioteca" Sala.NULL Sala.NULL)
            (Sala.sala "Quarto Principal" Sala.NULL
              (Sala.sala "Banheiro Privativo" Sala.NULL Sala.NULL)))
          (Sala.sala "Sala de Jantar" Sala.NULL Sala.NULL))
        (Sala.sala "Cozinha"
          (Sala.sala "Despensa" Sala.NULL Sala.NULL)
          (Sala.sala "Jardim"
            (Sala.sala "Piscina" Sala.NULL Sala.NULL)
            Sala.NULL))) ∧
    (caminho 5 (inicial
      (Sala.sala "Hall de Entrada"
        (Sala.sala "Sala de Estar"
          (Sala.sala "Escritorio"
            (Sala.sala "Biblioteca" Sala.NULL Sala.NULL)
            (Sala.sala "Quarto Principal" Sala.NULL
              (Sala.sala "Banheiro Privativo" Sala.NULL Sala.NULL)))
          (Sala.sala "Sala de Jantar" Sala.NULL Sala.NULL))
        (Sala.sala "Cozinha"
          (Sala.sala "Despensa" Sala.NULL Sala.NULL)
          (Sala.sala "Jardim"
            (Sala.sala "Piscina" Sala.NULL Sala.NULL)
            Sala.NULL))) ['e', 'e', 'd', 'd'])).length ≤ 4 :=
  ⟨by decide, (caminho_invariante _ _ _ ['e', 'e', 'd', 'd']).2.2.2.2 (by decide) 5⟩

/-- C15 as stated fails when the input ends: on the map of `main` the run on
the whole input `e` leaves the loop at "Biblioteca" (at end of file line 114
stores nothing, so the choice `e` is taken twice more and a leaf is reached),
while the run on `e` followed by `d` leaves it at "Sala de Jantar".  The value
`x` of the uninitialised `escolha` is overwritten by the first read. -/
theorem absorvente_no_fim_contraexemplo :
    montarMapa.map (fun hall =>
        ((explorarSalasFim 4 'x' hall ['e']).estado,
          (explorarSalasFim 4 'x' hall ['e']).salaAtual,
          (explorarSalasFim 4 'x' hall ['e']).entrada))
      = some (Estado.terminado, Sala.sala "Biblioteca" Sala.NULL Sala.NULL, []) ∧
    montarMapa.map (fun hall =>
        ((explorarSalasFim 4 'x' hall (['e'] ++ ['d'])).estado,
          (explorarSalasFim 4 'x' hall (['e'] ++ ['d'])).salaAtual,
          (explorarSalasFim 4 'x' hall (['e'] ++ ['d'])).entrada))
      = some (Estado.terminado, Sala.sala "Sala de Jantar" Sala.NULL Sala.NULL, []) ∧
    montarMapa.map (fun hall => (explorarSalasFim 4 'x' hall (['e'] ++ ['d'])).salaAtual)
      ≠ montarMapa.map (fun hall => (explorarSalasFim 4 'x' hall ['e']).salaAtual) ∧
    montarMapa.map (fun hall => (explorarSalasFim 4 'x' hall (['e'] ++ ['d'])).saida)
      ≠ montarMapa.map (fun hall => (explorarSalasFim 4 'x' hall ['e']).saida) := by
  decide

/-- C15, amended: when the explorer leaves the loop on `xs` before the input
runs out (every character it reads is one of `xs`, which is what `terminado`
says of the run on the input typed so far), then on the whole input `xs` and
on the whole input `xs` followed by any `ys` it leaves the loop in the same
room with the same output, whatever `escolha` held at first and however many
iterations beyond `xs.length + 1` are allowed, and `ys` is left unread. -/
theorem terminado_absorvente_antes_do_fim (n : Nat) (escolha0 : Char) (raiz : Sala)
    (xs ys : List Char) (h : (explorarSalas raiz xs).estado = Estado.terminado)
    (hn : xs.length + 1 ≤ n) :
    (explorarSalasFim n escolha0 raiz xs).estado = Estado.terminado ∧
    (explorarSalasFim n escolha0 raiz (xs ++ ys)).estado = Estado.terminado ∧
    (explorarSalasFim n escolha0 raiz (xs ++ ys)).salaAtual
      = (explorarSalasFim n escolha0 raiz xs).salaAtual ∧
    (explorarSalasFim n escolha0 raiz (xs ++ ys)).saida
      = (explorarSalasFim n escolha0 raiz xs).saida ∧
    (explorarSalasFim n escolha0 raiz (xs ++ ys)).entrada
      = (explorarSalasFim n escolha0 raiz xs).entrada ++ ys := by
  have ha : semEscolha (explorarSalasFim n escolha0 raiz xs) = explorarSalas raiz xs :=
    executarFim_terminado (xs.length + 1) n (inicialFim escolha0 raiz xs) h hn
  have hy : executar (xs.length + 1) (semEscolha (inicialFim escolha0 raiz (xs ++ ys)))
      = estender ys (explorarSalas raiz xs) :=
    executar_estender ys (xs.length + 1) (inicial raiz xs) h
  have hb : semEscolha (explorarSalasFim n escolha0 raiz (xs ++ ys))
      = estender ys (explorarSalas raiz xs) := by
    rw [← hy]
    exact executarFim_terminado (xs.length + 1) n (inicialFim escolha0 raiz (xs ++ ys))
      (by rw [hy]; exact h) hn
  have ea := congrArg Config.estado ha
  have eb := congrArg Config.estado hb
  have sa := congrArg Config.salaAtual ha
  have sb := congrArg Config.salaAtual hb
  have oa := congrArg Config.saida ha
  have ob := congrArg Config.saida hb
  have xa := congrArg Config.entrada ha
  have xb := congrArg Config.entrada hb
  simp only [semEscolha, estender] at ea eb sa sb oa ob xa xb
  refine ⟨by rw [ea, h], by rw [eb, h], by rw [sa, sb], by rw [oa, ob], ?_⟩
  rw [xa, xb]

/-- Witness of the amended C15: quitting with `s` at "Jardim", alone and
followed by `e`, `x`. -/
theorem terminado_absorvente_antes_do_fim_witness :
    (explorarSalas (Sala.sala "Jardim" (Sala.sala "Piscina" Sala.NULL Sala.NULL) Sala.NULL)
      ['s']).estado = Estado.terminado ∧
    ['s'].length + 1 ≤ 5 ∧
    (explorarSalasFim 5 'x'
        (Sala.sala "Jardim" (Sala.sala "Piscina" Sala.NULL Sala.NULL) Sala.NULL)
        (['s'] ++ ['e', 'x'])).salaAtual
      = (explorarSalasFim 5 'x'
        (Sala.sala "Jardim" (Sala.sala "Piscina" Sala.NULL Sala.NULL) Sala.NULL)
        ['s']).salaAtual :=
  ⟨by decide, by decide,
    (terminado_absorvente_antes_do_fim 5 'x'
      (Sala.sala "Jardim" (Sala.sala "Piscina" Sala.NULL Sala.NULL) Sala.NULL)
      ['s'] ['e', 'x'] (by decide) (by decide)).2.2.1⟩

end DetetiveQuest
